import Mathlib

/-!
# Verification of the `pystatemachine` driver (`smachine.py`)

Shallow embedding of the generator-based state-machine driver in
`smachine.py` together with the two utility drivers `run_sm` and
`iter_sm`.  The Python generator `sm` produced by
`state_machine(state_factory, transition_func)` is defunctionalised into
an explicit configuration type (`Cfg`) plus a fueled loop (`smLoop`)
that mirrors the source line by line; every observable action of the
driver (transition-function invocation, state creation, `close()` call,
`yield`) is recorded in a trace of events (`Ev`) so that the
specification's lifecycle claims can be stated about traces.

Exceptions are modelled by `Except Exc` with `Exc.stopIter` playing the
role of `StopIteration` (caught by the inner handler at lines 48-51 of
the source) and `Exc.err n` any other exception (propagating, with the
`finally` at lines 55-57 still closing the entered state body).
-/

set_option autoImplicit false

namespace SMachine

/-- Exceptions: `StopIteration` (the completion signal, caught by the
driver's inner handler) versus any other host failure (propagates). -/
inductive Exc where
  | stopIter : Exc
  | err (n : Nat) : Exc
deriving DecidableEq, Repr

/-- The `(context, stateIdPath, event)` triple exchanged at every
suspension boundary (spec: StepResult). -/
abbrev Trip (C I E : Type) := C × List I × Option E

/-- A generator of values of type `V`: each `send` either suspends with
an output value and a continuation, or raises.  Completion is raising
`Exc.stopIter`, exactly as in Python. -/
inductive Gen (V : Type) : Type where
  | mk (step : V → Except Exc (V × Gen V)) : Gen V

/-- `send` a value into a generator. -/
def Gen.send {V : Type} : Gen V → V → Except Exc (V × Gen V)
  | .mk f, v => f v

/-- A State Body is a generator exchanging StepResult triples.  The
driver's first resumption (`state.next()` at line 45) feeds it the
creation arguments `(ctx, s_id_vec, evt)`. -/
abbrev Body (C I E : Type) := Gen (Trip C I E)

/-- The driver's `state` variable refers either to a live generator or
to one that has already finished (`StopIteration` was raised): such a
generator raises `StopIteration` again on any further `send`. -/
inductive Slot (C I E : Type) where
  | live (b : Body C I E) : Slot C I E
  | exhausted : Slot C I E

/-- Resuming whatever the `state` variable refers to. -/
def Slot.send {C I E : Type} : Slot C I E → Trip C I E → Except Exc (Trip C I E × Slot C I E)
  | .live b, t => (Gen.send b t).map (fun p => (p.1, Slot.live p.2))
  | .exhausted, _ => .error .stopIter

/-- The local variables of the generator `sm` between two of its
suspension points: `ctx`, `s_id_vec` (called `path`), `evt`, `state`
(called `slot`) and `state_id` (called `sid`). -/
structure Cfg (C I E : Type) where
  ctx : C
  path : List I
  evt : Option E
  slot : Option (Slot C I E)
  sid : Option I

/-- Observable events of a driver run. -/
inductive Ev (C I E : Type) where
  | transCall (path : List I) (sid : Option I) (evt : Option E) : Ev C I E
  | created (path : List I) : Ev C I E
  | closed (sid : Option I) : Ev C I E
  | yielded (t : Trip C I E) : Ev C I E
deriving DecidableEq

/-- Outcome of the inner `try`-block (source lines 36-47): suspend with
an output, `StopIteration` caught by the handler, or an exception that
propagates. -/
inductive TryRes (C I E : Type) where
  | yld (out : Trip C I E) (k : Cfg C I E) : TryRes C I E
  | stop (k : Cfg C I E) : TryRes C I E
  | exc (e : Exc) (k : Cfg C I E) : TryRes C I E

variable {C I E : Type}

/-- Source lines 38-41: when a State Body is registered, force-close it
and pop the path; otherwise do nothing. -/
def closePop (cfg : Cfg C I E) : List (Ev C I E) × Cfg C I E :=
  match cfg.slot with
  | some _ => ([Ev.closed cfg.sid], {cfg with slot := none, path := cfg.path.dropLast})
  | none => ([], cfg)

/-- Source lines 36-47: given the non-absent `next_state_id`, either
enter a new state (close-and-pop the old one first when present, push,
create, first-resume) or resume the current one.  Returns the events it
caused and how the `try` block ended. -/
def tryStep [DecidableEq I] (state_factory : C → List I → Option E → Except Exc (Body C I E))
    (cfg : Cfg C I E) (nid : I) : List (Ev C I E) × TryRes C I E :=
  if some nid ≠ cfg.sid ∨ cfg.slot.isNone then
    let evs0 := (closePop cfg).1
    let cfg1 : Cfg C I E :=
      { ctx := (closePop cfg).2.ctx, evt := (closePop cfg).2.evt,
        slot := (closePop cfg).2.slot, sid := some nid, path := (closePop cfg).2.path ++ [nid] }
    match state_factory cfg1.ctx cfg1.path cfg1.evt with
    | .error .stopIter => (evs0, .stop cfg1)
    | .error (.err n) => (evs0, .exc (.err n) cfg1)
    | .ok b =>
      match Slot.send (.live b) (cfg1.ctx, cfg1.path, cfg1.evt) with
      | .ok (out, s) =>
        (evs0 ++ [Ev.created cfg1.path],
         .yld out {cfg1 with ctx := out.1, path := out.2.1, evt := out.2.2, slot := some s})
      | .error .stopIter =>
        (evs0 ++ [Ev.created cfg1.path], .stop {cfg1 with slot := some .exhausted})
      | .error (.err n) =>
        (evs0 ++ [Ev.created cfg1.path], .exc (.err n) {cfg1 with slot := some .exhausted})
  else
    match cfg.slot with
    | some s =>
      match Slot.send s (cfg.ctx, cfg.path, cfg.evt) with
      | .ok (out, s2) =>
        ([], .yld out {cfg with ctx := out.1, path := out.2.1, evt := out.2.2, slot := some s2})
      | .error .stopIter => ([], .stop {cfg with slot := some .exhausted})
      | .error (.err n) => ([], .exc (.err n) {cfg with slot := some .exhausted})
    | none => ([], .exc (.err 0) cfg)

/-- Events of the `finally` clause (source lines 55-57): close the
entered State Body, if any. -/
def closeEvs (cfg : Cfg C I E) : List (Ev C I E) :=
  match cfg.slot with
  | some _ => [Ev.closed cfg.sid]
  | none => []

/-- How one external step of the driver ends. -/
inductive LoopRes (C I E : Type) where
  | suspended (out : Trip C I E) (k : Cfg C I E) : LoopRes C I E
  | finished : LoopRes C I E
  | failed (e : Exc) : LoopRes C I E
  | fuelOut (k : Cfg C I E) : LoopRes C I E

/-- The driver's `while True` loop (source lines 32-54), run until it
suspends at the `yield` (line 52), breaks (line 35, then `finally`), or
an exception propagates (`finally` still closing the entered body).
The `Nat` argument is fuel bounding the number of loop iterations. -/
def smLoop [DecidableEq I] (transition_func : C → Option I × Option E → Except Exc (Option I))
    (state_factory : C → List I → Option E → Except Exc (Body C I E)) :
    Nat → Cfg C I E → List (Ev C I E) × LoopRes C I E
  | 0, cfg => ([], .fuelOut cfg)
  | fuel + 1, cfg =>
    let tev : Ev C I E := .transCall cfg.path cfg.sid cfg.evt
    match transition_func cfg.ctx (cfg.sid, cfg.evt) with
    | .error e => (tev :: closeEvs cfg, .failed e)
    | .ok none => (tev :: closeEvs cfg, .finished)
    | .ok (some nid) =>
      match tryStep state_factory cfg nid with
      | (evs, .yld out k) => (tev :: evs, .suspended out k)
      | (evs, .stop k) =>
        let r2 := smLoop transition_func state_factory fuel
          {k with evt := none, path := k.path.dropLast}
        (tev :: evs ++ r2.1, r2.2)
      | (evs, .exc e k) => (tev :: evs ++ closeEvs k, .failed e)

/-- Resuming the driver at the `yield` (source line 52): adopt the
caller's context and event, discard the caller's path, then check the
`state_id is None` break (line 53) and otherwise re-enter the loop. -/
def smResume [DecidableEq I] (transition_func : C → Option I × Option E → Except Exc (Option I))
    (state_factory : C → List I → Option E → Except Exc (Body C I E))
    (fuel : Nat) (k : Cfg C I E) (inp : Trip C I E) : List (Ev C I E) × LoopRes C I E :=
  let k2 : Cfg C I E := {k with ctx := inp.1, evt := inp.2.2}
  if k.sid = none then (closeEvs k2, .finished)
  else smLoop transition_func state_factory fuel k2

/-- Starting the driver generator (source lines 28-30): `state = None`,
`state_id = s_id_vec[-1] if s_id_vec else None`, then the loop. -/
def smStart [DecidableEq I] (transition_func : C → Option I × Option E → Except Exc (Option I))
    (state_factory : C → List I → Option E → Except Exc (Body C I E))
    (fuel : Nat) (ctx : C) (s_id_vec : List I) (evt : Option E) :
    List (Ev C I E) × LoopRes C I E :=
  smLoop transition_func state_factory fuel
    { ctx := ctx, path := s_id_vec, evt := evt, slot := none, sid := s_id_vec.getLast? }

/-- Externally closing a suspended driver (`GeneratorExit` delivered at
the `yield`): only the `finally` clause runs. -/
def smClose (k : Cfg C I E) : List (Ev C I E) := closeEvs k

/-- Final outcome of a whole multi-round run of the driver. -/
inductive FinalRes (C I E : Type) where
  | terminated : FinalRes C I E
  | failed (e : Exc) : FinalRes C I E
  | suspendedAt (out : Trip C I E) (k : Cfg C I E) : FinalRes C I E
  | fuelOut : FinalRes C I E

/-- Feed a list of external resumption values into the driver, starting
from the result of `smStart` (or a previous step); record a `yielded`
event at every suspension. -/
def drive [DecidableEq I] (transition_func : C → Option I × Option E → Except Exc (Option I))
    (state_factory : C → List I → Option E → Except Exc (Body C I E)) (fuel : Nat) :
    List (Trip C I E) → List (Ev C I E) × LoopRes C I E → List (Ev C I E) × FinalRes C I E
  | inputs, (evs, .suspended out k) =>
    match inputs with
    | [] => (evs ++ [Ev.yielded out], .suspendedAt out k)
    | inp :: rest =>
      let r2 := smResume transition_func state_factory fuel k inp
      drive transition_func state_factory fuel rest (evs ++ Ev.yielded out :: r2.1, r2.2)
  | _, (evs, .finished) => (evs, .terminated)
  | _, (evs, .failed e) => (evs, .failed e)
  | _, (evs, .fuelOut _) => (evs, .fuelOut)

/-- A complete run: start the driver with `init` and resume it with the
values in `inputs` until it terminates, fails, or runs out of inputs. -/
def driverRun [DecidableEq I] (transition_func : C → Option I × Option E → Except Exc (Option I))
    (state_factory : C → List I → Option E → Except Exc (Body C I E))
    (fuel : Nat) (init : Trip C I E) (inputs : List (Trip C I E)) :
    List (Ev C I E) × FinalRes C I E :=
  drive transition_func state_factory fuel inputs
    (smStart transition_func state_factory fuel init.1 init.2.1 init.2.2)

/-- Number of `created` events in a trace. -/
def createdCount (evs : List (Ev C I E)) : Nat :=
  evs.countP fun ev => match ev with | .created _ => true | _ => false

/-- Number of `closed` events in a trace. -/
def closedCount (evs : List (Ev C I E)) : Nat :=
  evs.countP fun ev => match ev with | .closed _ => true | _ => false

/-- Number of `yielded` events (external suspensions) in a trace. -/
def yieldedCount (evs : List (Ev C I E)) : Nat :=
  evs.countP fun ev => match ev with | .yielded _ => true | _ => false

/-- 1 when a State Body is registered in the `state` variable. -/
def openCount (cfg : Cfg C I E) : Nat :=
  if cfg.slot.isSome then 1 else 0

/-- The suspended StepResult of a final outcome, when there is one. -/
def FinalRes.outTrip : FinalRes C I E → Option (Trip C I E)
  | .suspendedAt out _ => some out
  | _ => none

/-- The internally tracked `state_id` at the final suspension, when
there is one. -/
def FinalRes.sidAt : FinalRes C I E → Option (Option I)
  | .suspendedAt _ k => some k.sid
  | _ => none

/-- The configuration a `try`-block outcome carries. -/
def TryRes.kOf : TryRes C I E → Cfg C I E
  | .yld _ k => k
  | .stop k => k
  | .exc _ k => k

/-- Whether a State Body is still registered when one external step of
the loop ends. -/
def LoopRes.endOpen : LoopRes C I E → Nat
  | .suspended _ k => openCount k
  | .finished => 0
  | .failed _ => 0
  | .fuelOut k => openCount k

/-- Path-preserving State Bodies: every suspension hands back a triple
whose path component equals the path it was resumed with (this is how
well-behaved leaf bodies and nested drivers below their own identifier
behave; the driver itself does not enforce it). -/
inductive PathPres : Gen (Trip C I E) → Prop where
  | intro (f : Trip C I E → Except Exc (Trip C I E × Gen (Trip C I E)))
      (hpath : ∀ t out b, f t = .ok (out, b) → out.2.1 = t.2.1)
      (hrec : ∀ t out b, f t = .ok (out, b) → PathPres b) :
      PathPres (Gen.mk f)

/-- The driver's internal consistency property between its `state`,
`state_id` and `s_id_vec` variables: whenever a live State Body is
registered, it is path-preserving and the path ends in the identifier
the body runs for. -/
def Inv (cfg : Cfg C I E) : Prop :=
  ∀ b, cfg.slot = some (.live b) → PathPres b ∧ cfg.path.getLast? = cfg.sid

/-- `run_sm` (source lines 72-97), on a generic generator: repeatedly
`send` the current value into the generator; when a callback is given,
it transforms the value after each round; `StopIteration` from either
the generator or the callback ends the run with the current value; any
other exception propagates.  The `Nat` argument is fuel. -/
inductive RunRes (V : Type) where
  | ret (v : V) : RunRes V
  | raised (n : Nat) : RunRes V
  | fuelOut : RunRes V
deriving DecidableEq

def run_sm {V : Type} (callback : Option (Gen V → V → Except Exc V)) :
    Nat → Gen V → V → RunRes V
  | 0, _, _ => .fuelOut
  | fuel + 1, g, val =>
    match Gen.send g val with
    | .error .stopIter => .ret val
    | .error (.err n) => .raised n
    | .ok (v, g2) =>
      match callback with
      | none => run_sm callback fuel g2 v
      | some f =>
        match f g2 v with
        | .error .stopIter => .ret v
        | .error (.err n) => .raised n
        | .ok v2 => run_sm callback fuel g2 v2

/-- State of the `iter_sm` generator (source lines 100-126) between two
of its yields: the wrapped state machine generator, the remaining
events of `evt_iter` (absent when no event source was given), and the
last value `val`. -/
structure IterSt (C I E : Type) where
  g : Gen (Trip C I E)
  evts : Option (List (Option E))
  val : Trip C I E

/-- One pull from the `iter_sm` iterator: a yielded value with the
successor state, the end of the iteration (`StopIteration`), or a
propagating exception. -/
inductive IterRes (C I E : Type) where
  | out (v : Trip C I E) (st : IterSt C I E) : IterRes C I E
  | stop : IterRes C I E
  | raised (n : Nat) : IterRes C I E

/-- Source lines 119-122: send `val` into the state machine, then apply
the callback when present; the result is yielded to the consumer. -/
def pullOnce (callback : Option (Gen (Trip C I E) → Trip C I E → Except Exc (Trip C I E)))
    (g : Gen (Trip C I E)) (evts : Option (List (Option E))) (val : Trip C I E) :
    IterRes C I E :=
  match Gen.send g val with
  | .error .stopIter => .stop
  | .error (.err n) => .raised n
  | .ok (v, g2) =>
    match callback with
    | none => .out v ⟨g2, evts, v⟩
    | some f =>
      match f g2 v with
      | .error .stopIter => .stop
      | .error (.err n) => .raised n
      | .ok v2 => .out v2 ⟨g2, evts, v2⟩

/-- The first pull of `iter_sm` (entering the loop at line 118 with the
initial `val`). -/
def iter_sm_first (callback : Option (Gen (Trip C I E) → Trip C I E → Except Exc (Trip C I E)))
    (g : Gen (Trip C I E)) (evts : Option (List (Option E))) (val : Trip C I E) :
    IterRes C I E :=
  pullOnce callback g evts val

/-- A later pull of `iter_sm` (source lines 122-126 followed by the loop
body): `pval` is the value the consumer sent into the iterator at the
yield, absent when it pulled plainly.  A present `pval` is used
verbatim; otherwise, when an event source exists, one event is pulled
from it and substituted into the event slot of the previous value
(exhaustion of the event source ends the iteration); with no event
source the previous value is reused. -/
def iter_sm_resume (callback : Option (Gen (Trip C I E) → Trip C I E → Except Exc (Trip C I E)))
    (st : IterSt C I E) (pval : Option (Trip C I E)) : IterRes C I E :=
  match pval with
  | some p => pullOnce callback st.g st.evts p
  | none =>
    match st.evts with
    | none => pullOnce callback st.g none st.val
    | some [] => .stop
    | some (e :: rest) => pullOnce callback st.g (some rest) (st.val.1, st.val.2.1, e)

/-! ### Concrete instances used to witness and refute claims -/

/-- A State Body that signals completion on its very first resumption. -/
def bodyStopNow : Body Nat Nat Nat := Gen.mk fun _ => .error .stopIter

/-- Transition Function of the spec scenario: `(none, *) -> 0`,
`(some _, *) -> absent` (state `"A"` is numbered 0). -/
def tfA : Nat → Option Nat × Option Nat → Except Exc (Option Nat) :=
  fun _ pr => .ok (match pr.1 with | none => some 0 | some _ => none)

/-- State Factory of the spec scenario: every body completes at once. -/
def sfA : Nat → List Nat → Option Nat → Except Exc (Body Nat Nat Nat) :=
  fun _ _ _ => .ok bodyStopNow

/-- The driver's starting configuration for context 0, empty path, no
event. -/
def cfgA0 : Cfg Nat Nat Nat :=
  { ctx := 0, path := [], evt := none, slot := none, sid := none }

/-- The configuration left behind when the body entered for id 0 from
`cfgA0` completes at once. -/
def kA : Cfg Nat Nat Nat :=
  { ctx := 0, path := [0], evt := none, slot := some .exhausted, sid := some 0 }

/-- A State Body (for id 0) that first hands back the extended path
`[0, 1]` — as a nested driver would — and then completes. -/
def body0after : Body Nat Nat Nat := Gen.mk fun _ => .error .stopIter

def body0 : Body Nat Nat Nat :=
  Gen.mk fun t => .ok ((t.1, [0, 1], t.2.2), body0after)

/-- A State Body (for id 2) that hands back its input unchanged. -/
def body2after : Body Nat Nat Nat := Gen.mk fun _ => .error .stopIter

def body2 : Body Nat Nat Nat :=
  Gen.mk fun t => .ok (t, body2after)

/-- Transition Function: enter 0 first, keep 0 while an event is
present, move to 2 once the event is absent, then stay at 2. -/
def tfB : Nat → Option Nat × Option Nat → Except Exc (Option Nat) :=
  fun _ pr => .ok (match pr with
    | (none, _) => some 0
    | (some 0, some _) => some 0
    | (some 0, none) => some 2
    | (some 2, _) => some 2
    | _ => none)

/-- State Factory pairing id 0 with `body0` and other ids with
`body2`. -/
def sfB : Nat → List Nat → Option Nat → Except Exc (Body Nat Nat Nat) :=
  fun _ p _ => .ok (if p.getLast? = some 0 then body0 else body2)

/-- The driver configuration after `body0`, entered from an empty path,
has suspended with path `[0, 1]` and the caller has resumed with
event 6. -/
def cfgB1 : Cfg Nat Nat Nat :=
  { ctx := 0, path := [0, 1], evt := some 6, slot := some (.live body0after), sid := some 0 }

/-- `cfgB1` after `body0after` has signalled completion. -/
def kB : Cfg Nat Nat Nat :=
  { ctx := 0, path := [0, 1], evt := some 6, slot := some .exhausted, sid := some 0 }

/-- `kB` after the handler has cleared the event and popped the path:
the finished body for id 0 is still registered. -/
def cfgB2 : Cfg Nat Nat Nat :=
  { ctx := 0, path := [0], evt := none, slot := some .exhausted, sid := some 0 }

/-- The suspended configuration at the end of the `tfB`/`sfB` run: a
fresh body for id 2 is entered with path `[2]`. -/
def kB2 : Cfg Nat Nat Nat :=
  { ctx := 0, path := [2], evt := none, slot := some (.live body2after), sid := some 2 }

/-- A State Body (entered for id 0) that hands back the unrelated path
`[7]`. -/
def body7after : Body Nat Nat Nat := Gen.mk fun _ => .error .stopIter

def body7 : Body Nat Nat Nat :=
  Gen.mk fun t => .ok ((t.1, [7], t.2.2), body7after)

/-- Transition Function: enter 0 and then keep whatever id is current. -/
def tfC : Nat → Option Nat × Option Nat → Except Exc (Option Nat) :=
  fun _ pr => .ok (match pr.1 with | none => some 0 | some n => some n)

/-- State Factory returning the path-corrupting `body7`. -/
def sfC : Nat → List Nat → Option Nat → Except Exc (Body Nat Nat Nat) :=
  fun _ _ _ => .ok body7

/-- The suspended configuration produced by `tfC`/`sfC` from `cfgA0`. -/
def kC : Cfg Nat Nat Nat :=
  { ctx := 0, path := [7], evt := none, slot := some (.live body7after), sid := some 0 }

/-- A path-preserving State Body: hands back its input once, then
completes. -/
def bodyP0 : Body Nat Nat Nat := Gen.mk fun _ => .error .stopIter

def bodyP1 : Body Nat Nat Nat := Gen.mk fun t => .ok (t, bodyP0)

def sfP : Nat → List Nat → Option Nat → Except Exc (Body Nat Nat Nat) :=
  fun _ _ _ => .ok bodyP1

def tfP : Nat → Option Nat × Option Nat → Except Exc (Option Nat) :=
  fun _ pr => .ok (match pr.1 with | none => some 0 | some n => some n)

/-- The suspended configuration produced by `tfP`/`sfP` from `cfgA0`. -/
def kP : Cfg Nat Nat Nat :=
  { ctx := 0, path := [0], evt := none, slot := some (.live bodyP0), sid := some 0 }

/-- Generators over `Nat` for the `run_sm` witnesses. -/
def gW2 : Gen Nat := Gen.mk fun _ => .error .stopIter

def gW : Gen Nat := Gen.mk fun v => .ok (v + 1, gW2)

/-- A callback that halts the run at once by raising the stop signal. -/
def cbStop : Gen Nat → Nat → Except Exc Nat := fun _ _ => .error .stopIter

/-- A callback that adds 10 to the value. -/
def cbAdd : Gen Nat → Nat → Except Exc Nat := fun _ v => .ok (v + 10)

/-- Generators over triples for the `iter_sm` witnesses. -/
def gI2 : Gen (Trip Nat Nat Nat) := Gen.mk fun _ => .error .stopIter

def gI : Gen (Trip Nat Nat Nat) := Gen.mk fun t => .ok (t, gI2)

/-- An `iter_sm` state: wrapped machine `gI`, one pending event 7, last
value `(0, [3], some 5)`. -/
def stI : IterSt Nat Nat Nat :=
  { g := gI, evts := some [some 7], val := (0, [3], some 5) }

section Lemmas

@[simp] theorem closePop_ctx (cfg : Cfg C I E) : (closePop cfg).2.ctx = cfg.ctx := by
  unfold closePop; cases cfg.slot <;> rfl

@[simp] theorem closePop_evt (cfg : Cfg C I E) : (closePop cfg).2.evt = cfg.evt := by
  unfold closePop; cases cfg.slot <;> rfl

@[simp] theorem closePop_sid (cfg : Cfg C I E) : (closePop cfg).2.sid = cfg.sid := by
  unfold closePop; cases cfg.slot <;> rfl

@[simp] theorem closePop_slot (cfg : Cfg C I E) : (closePop cfg).2.slot = none := by
  unfold closePop; cases h : cfg.slot <;> simp [h]

theorem closePop_path (cfg : Cfg C I E) :
    (closePop cfg).2.path = if cfg.slot.isNone then cfg.path else cfg.path.dropLast := by
  unfold closePop; cases h : cfg.slot <;> simp [h]

theorem closePop_evs (cfg : Cfg C I E) :
    (closePop cfg).1 = if cfg.slot.isNone then [] else [Ev.closed cfg.sid] := by
  unfold closePop; cases h : cfg.slot <;> simp [h]

@[simp] theorem closedCount_nil : closedCount ([] : List (Ev C I E)) = 0 := rfl

@[simp] theorem closedCount_append (a b : List (Ev C I E)) :
    closedCount (a ++ b) = closedCount a + closedCount b := by
  simp [closedCount, List.countP_append]

@[simp] theorem closedCount_closed (s : Option I) (l : List (Ev C I E)) :
    closedCount (Ev.closed s :: l) = closedCount l + 1 := by
  simp [closedCount, List.countP_cons]

@[simp] theorem closedCount_transCall (p : List I) (s : Option I) (e : Option E)
    (l : List (Ev C I E)) : closedCount (Ev.transCall p s e :: l) = closedCount l := by
  simp [closedCount, List.countP_cons]

@[simp] theorem closedCount_created (p : List I) (l : List (Ev C I E)) :
    closedCount (Ev.created p :: l) = closedCount l := by
  simp [closedCount, List.countP_cons]

@[simp] theorem closedCount_yielded (t : Trip C I E) (l : List (Ev C I E)) :
    closedCount (Ev.yielded t :: l) = closedCount l := by
  simp [closedCount, List.countP_cons]

@[simp] theorem createdCount_nil : createdCount ([] : List (Ev C I E)) = 0 := rfl

@[simp] theorem createdCount_append (a b : List (Ev C I E)) :
    createdCount (a ++ b) = createdCount a + createdCount b := by
  simp [createdCount, List.countP_append]

@[simp] theorem createdCount_closed (s : Option I) (l : List (Ev C I E)) :
    createdCount (Ev.closed s :: l) = createdCount l := by
  simp [createdCount, List.countP_cons]

@[simp] theorem createdCount_transCall (p : List I) (s : Option I) (e : Option E)
    (l : List (Ev C I E)) : createdCount (Ev.transCall p s e :: l) = createdCount l := by
  simp [createdCount, List.countP_cons]

@[simp] theorem createdCount_created (p : List I) (l : List (Ev C I E)) :
    createdCount (Ev.created p :: l) = createdCount l + 1 := by
  simp [createdCount, List.countP_cons]

@[simp] theorem createdCount_yielded (t : Trip C I E) (l : List (Ev C I E)) :
    createdCount (Ev.yielded t :: l) = createdCount l := by
  simp [createdCount, List.countP_cons]

@[simp] theorem yieldedCount_nil : yieldedCount ([] : List (Ev C I E)) = 0 := rfl

@[simp] theorem yieldedCount_append (a b : List (Ev C I E)) :
    yieldedCount (a ++ b) = yieldedCount a + yieldedCount b := by
  simp [yieldedCount, List.countP_append]

@[simp] theorem yieldedCount_closed (s : Option I) (l : List (Ev C I E)) :
    yieldedCount (Ev.closed s :: l) = yieldedCount l := by
  simp [yieldedCount, List.countP_cons]

@[simp] theorem yieldedCount_transCall (p : List I) (s : Option I) (e : Option E)
    (l : List (Ev C I E)) : yieldedCount (Ev.transCall p s e :: l) = yieldedCount l := by
  simp [yieldedCount, List.countP_cons]

@[simp] theorem yieldedCount_created (p : List I) (l : List (Ev C I E)) :
    yieldedCount (Ev.created p :: l) = yieldedCount l := by
  simp [yieldedCount, List.countP_cons]

@[simp] theorem yieldedCount_yielded (t : Trip C I E) (l : List (Ev C I E)) :
    yieldedCount (Ev.yielded t :: l) = yieldedCount l + 1 := by
  simp [yieldedCount, List.countP_cons]

@[simp] theorem closedCount_closeEvs (cfg : Cfg C I E) :
    closedCount (closeEvs cfg) = openCount cfg := by
  unfold closeEvs openCount; cases cfg.slot <;> simp

@[simp] theorem createdCount_closeEvs (cfg : Cfg C I E) :
    createdCount (closeEvs cfg) = 0 := by
  unfold closeEvs; cases cfg.slot <;> simp

@[simp] theorem yieldedCount_closeEvs (cfg : Cfg C I E) :
    yieldedCount (closeEvs cfg) = 0 := by
  unfold closeEvs; cases cfg.slot <;> simp

/-- A suspension produced by the `try` block always carries
`state_id = next_state_id`. -/
theorem tryStep_yld_sid [DecidableEq I]
    (state_factory : C → List I → Option E → Except Exc (Body C I E)) (cfg : Cfg C I E) (nid : I) (evs : List (Ev C I E))
    (out : Trip C I E) (k : Cfg C I E)
    (h : tryStep state_factory cfg nid = (evs, .yld out k)) : k.sid = some nid := by
  unfold tryStep at h
  split at h
  · dsimp only at h
    split at h
    · simp at h
    · simp at h
    · split at h
      · simp only [Prod.mk.injEq, TryRes.yld.injEq] at h
        obtain ⟨-, -, hk⟩ := h
        subst hk; rfl
      · simp at h
      · simp at h
  · rename_i hcond
    rw [not_or, not_not] at hcond
    split at h
    · split at h
      · simp only [Prod.mk.injEq, TryRes.yld.injEq] at h
        obtain ⟨-, -, hk⟩ := h
        subst hk
        exact hcond.1.symm
      · simp at h
      · simp at h
    · simp at h

/-- A completion caught by the handler always leaves
`state_id = next_state_id` in place. -/
theorem tryStep_stop_sid [DecidableEq I]
    (state_factory : C → List I → Option E → Except Exc (Body C I E)) (cfg : Cfg C I E) (nid : I) (evs : List (Ev C I E)) (k : Cfg C I E)
    (h : tryStep state_factory cfg nid = (evs, .stop k)) : k.sid = some nid := by
  unfold tryStep at h
  split at h
  · dsimp only at h
    split at h
    · simp only [Prod.mk.injEq, TryRes.stop.injEq] at h
      obtain ⟨-, hk⟩ := h
      subst hk; rfl
    · simp at h
    · split at h
      · simp at h
      · simp only [Prod.mk.injEq, TryRes.stop.injEq] at h
        obtain ⟨-, hk⟩ := h
        subst hk; rfl
      · simp at h
  · rename_i hcond
    rw [not_or, not_not] at hcond
    split at h
    · split at h
      · simp at h
      · simp only [Prod.mk.injEq, TryRes.stop.injEq] at h
        obtain ⟨-, hk⟩ := h
        subst hk
        exact hcond.1.symm
      · simp at h
    · simp at h

@[simp] theorem openCount_slot_none (cfg : Cfg C I E) (h : cfg.slot = none) :
    openCount cfg = 0 := by simp [openCount, h]

@[simp] theorem openCount_slot_some (cfg : Cfg C I E) (s : Slot C I E) (h : cfg.slot = some s) :
    openCount cfg = 1 := by simp [openCount, h]

/-- Bookkeeping of the `try` block: every `close()` it performs is
balanced against created bodies and the registered-body count. -/
theorem tryStep_count [DecidableEq I]
    (state_factory : C → List I → Option E → Except Exc (Body C I E))
    (cfg : Cfg C I E) (nid : I) :
    closedCount (tryStep state_factory cfg nid).1
      + openCount (tryStep state_factory cfg nid).2.kOf
    = createdCount (tryStep state_factory cfg nid).1 + openCount cfg := by
  unfold tryStep
  split
  · dsimp only
    split
    · simp [TryRes.kOf, closePop_evs, openCount, closePop_slot]
      cases h : cfg.slot <;> simp [h]
    · simp [TryRes.kOf, closePop_evs, openCount, closePop_slot]
      cases h : cfg.slot <;> simp [h]
    · split
      · simp [TryRes.kOf, closePop_evs, openCount]
        cases h : cfg.slot <;> simp [h]
      · simp [TryRes.kOf, closePop_evs, openCount]
        cases h : cfg.slot <;> simp [h]
      · simp [TryRes.kOf, closePop_evs, openCount]
        cases h : cfg.slot <;> simp [h]
  · rename_i hcond
    rw [not_or, not_not] at hcond
    split
    · rename_i s hslot
      split <;> simp [TryRes.kOf, openCount, hslot]
    · rename_i hslot
      exact absurd (Option.isNone_iff_eq_none.mpr hslot) hcond.2

/-- Bookkeeping of one external step of the loop: on every way the loop
can end, `closed` events balance `created` events, corrected by the
bodies registered at entry and at the end. -/
theorem smLoop_count [DecidableEq I]
    (transition_func : C → Option I × Option E → Except Exc (Option I))
    (state_factory : C → List I → Option E → Except Exc (Body C I E)) :
    ∀ (fuel : Nat) (cfg : Cfg C I E),
    closedCount (smLoop transition_func state_factory fuel cfg).1
      + (smLoop transition_func state_factory fuel cfg).2.endOpen
    = createdCount (smLoop transition_func state_factory fuel cfg).1 + openCount cfg := by
  intro fuel
  induction fuel with
  | zero => intro cfg; simp [smLoop, LoopRes.endOpen]
  | succ n ih =>
    intro cfg
    unfold smLoop
    dsimp only
    split
    · simp [LoopRes.endOpen]
    · simp [LoopRes.endOpen]
    · rename_i nid htf
      rcases hts : tryStep state_factory cfg nid with ⟨evs, tr⟩
      have hc := tryStep_count state_factory cfg nid
      rw [hts] at hc
      cases tr with
      | yld out k =>
        simp only [LoopRes.endOpen]
        simp only [TryRes.kOf] at hc
        simp only [closedCount_transCall, createdCount_transCall]
        omega
      | stop k =>
        dsimp only
        simp only [LoopRes.endOpen, TryRes.kOf] at *
        have ihk := ih {k with evt := none, path := k.path.dropLast}
        simp only [closedCount_transCall, createdCount_transCall, closedCount_append,
          createdCount_append]
        have hok : openCount {k with evt := none, path := k.path.dropLast} = openCount k := by
          simp [openCount]
        omega
      | exc e k =>
        simp only [LoopRes.endOpen, TryRes.kOf] at *
        simp only [closedCount_transCall, createdCount_transCall, closedCount_append,
          createdCount_append, closedCount_closeEvs, createdCount_closeEvs]
        omega

/-- Each loop iteration begins by invoking the Transition Function on
the current configuration. -/
theorem smLoop_head [DecidableEq I]
    (transition_func : C → Option I × Option E → Except Exc (Option I))
    (state_factory : C → List I → Option E → Except Exc (Body C I E))
    (fuel : Nat) (cfg : Cfg C I E) :
    ∃ tl r, smLoop transition_func state_factory (fuel + 1) cfg
      = (Ev.transCall cfg.path cfg.sid cfg.evt :: tl, r) := by
  unfold smLoop
  dsimp only
  split
  · exact ⟨_, _, rfl⟩
  · exact ⟨_, _, rfl⟩
  · rename_i nid htf
    rcases hts : tryStep state_factory cfg nid with ⟨evs, tr⟩
    cases tr <;> exact ⟨_, _, rfl⟩

/-- Whenever the loop suspends, the internally tracked `state_id` is
non-absent. -/
theorem smLoop_suspended_sid [DecidableEq I]
    (transition_func : C → Option I × Option E → Except Exc (Option I))
    (state_factory : C → List I → Option E → Except Exc (Body C I E)) :
    ∀ (fuel : Nat) (cfg : Cfg C I E) (evs : List (Ev C I E)) (out : Trip C I E) (k : Cfg C I E),
      smLoop transition_func state_factory fuel cfg = (evs, .suspended out k) →
      ∃ nid, k.sid = some nid := by
  intro fuel
  induction fuel with
  | zero =>
    intro cfg evs out k h
    simp [smLoop] at h
  | succ n ih =>
    intro cfg evs out k h
    unfold smLoop at h
    dsimp only at h
    split at h
    · simp at h
    · simp at h
    · rename_i nid htf
      rcases hts : tryStep state_factory cfg nid with ⟨evs1, tr⟩
      rw [hts] at h
      cases tr with
      | yld out1 k1 =>
        dsimp only at h
        simp only [Prod.mk.injEq, LoopRes.suspended.injEq] at h
        obtain ⟨-, -, hk⟩ := h
        subst hk
        exact ⟨nid, tryStep_yld_sid state_factory cfg nid evs1 out1 k1 hts⟩
      | stop k1 =>
        dsimp only at h
        simp only [Prod.mk.injEq] at h
        obtain ⟨-, h2⟩ := h
        exact ih _ _ out k (by rw [← h2])
      | exc e k1 =>
        dsimp only at h
        simp at h

/-- Resuming a suspended driver whose tracked `state_id` is non-absent
re-enters the loop with the caller's context and event adopted and the
caller's path discarded. -/
theorem smResume_not_none [DecidableEq I]
    (transition_func : C → Option I × Option E → Except Exc (Option I))
    (state_factory : C → List I → Option E → Except Exc (Body C I E))
    (fuel : Nat) (k : Cfg C I E) (inp : Trip C I E) (h : k.sid ≠ none) :
    smResume transition_func state_factory fuel k inp
      = smLoop transition_func state_factory fuel {k with ctx := inp.1, evt := inp.2.2} := by
  unfold smResume
  simp [h]

/-- Bookkeeping of a resumption: as `smLoop_count`, with the body
registered at the suspension accounted on the entry side. -/
theorem smResume_count [DecidableEq I]
    (transition_func : C → Option I × Option E → Except Exc (Option I))
    (state_factory : C → List I → Option E → Except Exc (Body C I E))
    (fuel : Nat) (k : Cfg C I E) (inp : Trip C I E) :
    closedCount (smResume transition_func state_factory fuel k inp).1
      + (smResume transition_func state_factory fuel k inp).2.endOpen
    = createdCount (smResume transition_func state_factory fuel k inp).1 + openCount k := by
  unfold smResume
  dsimp only
  split
  · simp [LoopRes.endOpen, openCount]
  · have := smLoop_count transition_func state_factory fuel {k with ctx := inp.1, evt := inp.2.2}
    simpa [openCount] using this

/-- After a completion caught by the handler, the loop immediately
re-invokes the Transition Function: with the event cleared to absent,
the path popped, and `state_id` still the identifier of the State Body
that just finished. -/
theorem smLoop_stop_next [DecidableEq I]
    (transition_func : C → Option I × Option E → Except Exc (Option I))
    (state_factory : C → List I → Option E → Except Exc (Body C I E))
    (fuel : Nat) (cfg : Cfg C I E) (nid : I) (evs : List (Ev C I E)) (k : Cfg C I E)
    (htf : transition_func cfg.ctx (cfg.sid, cfg.evt) = .ok (some nid))
    (hts : tryStep state_factory cfg nid = (evs, .stop k)) :
    ∃ tl r, smLoop transition_func state_factory (fuel + 2) cfg
      = (Ev.transCall cfg.path cfg.sid cfg.evt
          :: evs ++ Ev.transCall k.path.dropLast (some nid) none :: tl, r) := by
  have hsid := tryStep_stop_sid state_factory cfg nid evs k hts
  obtain ⟨tl, r, hl⟩ := smLoop_head transition_func state_factory fuel
    {k with evt := none, path := k.path.dropLast}
  refine ⟨tl, r, ?_⟩
  show smLoop transition_func state_factory (fuel + 1 + 1) cfg = _
  unfold smLoop
  dsimp only
  rw [htf]
  dsimp only
  rw [hts]
  dsimp only
  rw [hl]
  dsimp only
  rw [hsid]

/-- Driving a run to its final outcome preserves the close/create
balance: traces of terminated and failed runs are balanced, and a run
cut off while suspended is balanced up to the still-registered body. -/
theorem drive_count [DecidableEq I]
    (transition_func : C → Option I × Option E → Except Exc (Option I))
    (state_factory : C → List I → Option E → Except Exc (Body C I E)) (fuel : Nat) :
    ∀ (inputs : List (Trip C I E)) (evs : List (Ev C I E)) (r : LoopRes C I E),
      closedCount evs + r.endOpen = createdCount evs →
      ((drive transition_func state_factory fuel inputs (evs, r)).2 = .terminated →
        closedCount (drive transition_func state_factory fuel inputs (evs, r)).1
          = createdCount (drive transition_func state_factory fuel inputs (evs, r)).1) ∧
      (∀ e, (drive transition_func state_factory fuel inputs (evs, r)).2 = .failed e →
        closedCount (drive transition_func state_factory fuel inputs (evs, r)).1
          = createdCount (drive transition_func state_factory fuel inputs (evs, r)).1) ∧
      (∀ out k, (drive transition_func state_factory fuel inputs (evs, r)).2
          = .suspendedAt out k →
        closedCount (drive transition_func state_factory fuel inputs (evs, r)).1 + openCount k
          = createdCount (drive transition_func state_factory fuel inputs (evs, r)).1) := by
  intro inputs
  induction inputs with
  | nil =>
    intro evs r hbal
    cases r with
    | suspended out k =>
      refine ⟨?_, ?_, ?_⟩
      · intro h; simp [drive] at h
      · intro e h; simp [drive] at h
      · intro out1 k1 h
        simp only [drive, FinalRes.suspendedAt.injEq] at h
        obtain ⟨-, hk⟩ := h
        subst hk
        simp only [LoopRes.endOpen] at hbal
        simp only [drive, closedCount_append, createdCount_append]
        simp
        omega
    | finished =>
      simp only [LoopRes.endOpen] at hbal
      refine ⟨?_, ?_, ?_⟩
      · intro h; simpa [drive] using hbal
      · intro e h; simp [drive] at h
      · intro out k h; simp [drive] at h
    | failed e0 =>
      simp only [LoopRes.endOpen] at hbal
      refine ⟨?_, ?_, ?_⟩
      · intro h; simp [drive] at h
      · intro e h; simpa [drive] using hbal
      · intro out k h; simp [drive] at h
    | fuelOut k0 =>
      refine ⟨?_, ?_, ?_⟩
      · intro h; simp [drive] at h
      · intro e h; simp [drive] at h
      · intro out k h; simp [drive] at h
  | cons inp rest ih =>
    intro evs r hbal
    cases r with
    | suspended out k =>
      simp only [LoopRes.endOpen] at hbal
      have hres := smResume_count transition_func state_factory fuel k inp
      have hbal2 : closedCount
            (evs ++ Ev.yielded out
              :: (smResume transition_func state_factory fuel k inp).1)
          + (smResume transition_func state_factory fuel k inp).2.endOpen
        = createdCount (evs ++ Ev.yielded out
            :: (smResume transition_func state_factory fuel k inp).1) := by
        simp only [closedCount_append, createdCount_append, closedCount_yielded,
          createdCount_yielded]
        omega
      have h2 := ih (evs ++ Ev.yielded out
          :: (smResume transition_func state_factory fuel k inp).1)
        (smResume transition_func state_factory fuel k inp).2 hbal2
      simpa [drive] using h2
    | finished =>
      simp only [LoopRes.endOpen] at hbal
      refine ⟨?_, ?_, ?_⟩
      · intro h; simpa [drive] using hbal
      · intro e h; simp [drive] at h
      · intro out k h; simp [drive] at h
    | failed e0 =>
      simp only [LoopRes.endOpen] at hbal
      refine ⟨?_, ?_, ?_⟩
      · intro h; simp [drive] at h
      · intro e h; simpa [drive] using hbal
      · intro out k h; simp [drive] at h
    | fuelOut k0 =>
      refine ⟨?_, ?_, ?_⟩
      · intro h; simp [drive] at h
      · intro e h; simp [drive] at h
      · intro out k h; simp [drive] at h

/-- A completion caught by the handler leaves the finished generator
registered (or, when the State Factory itself raised the completion
signal, nothing registered). -/
theorem tryStep_stop_slot [DecidableEq I]
    (state_factory : C → List I → Option E → Except Exc (Body C I E))
    (cfg : Cfg C I E) (nid : I) (evs : List (Ev C I E)) (k : Cfg C I E)
    (h : tryStep state_factory cfg nid = (evs, .stop k)) :
    k.slot = none ∨ k.slot = some .exhausted := by
  unfold tryStep at h
  split at h
  · dsimp only at h
    split at h
    · simp only [Prod.mk.injEq, TryRes.stop.injEq] at h
      obtain ⟨-, hk⟩ := h
      subst hk
      left
      exact closePop_slot cfg
    · simp at h
    · split at h
      · simp at h
      · simp only [Prod.mk.injEq, TryRes.stop.injEq] at h
        obtain ⟨-, hk⟩ := h
        subst hk
        right; rfl
      · simp at h
  · split at h
    · split at h
      · simp at h
      · simp only [Prod.mk.injEq, TryRes.stop.injEq] at h
        obtain ⟨-, hk⟩ := h
        subst hk
        right; rfl
      · simp at h
    · simp at h

/-- A successful resumption of the `state` variable comes from a live
generator and leaves a live continuation. -/
theorem Slot.send_live_ok {s : Slot C I E} {t : Trip C I E} {out : Trip C I E}
    {s2 : Slot C I E} (h : Slot.send s t = .ok (out, s2)) :
    ∃ b b2, s = .live b ∧ Gen.send b t = .ok (out, b2) ∧ s2 = .live b2 := by
  cases s with
  | exhausted => simp [Slot.send] at h
  | live b =>
    cases hg : Gen.send b t with
    | error e => simp [Slot.send, hg, Except.map] at h
    | ok p =>
      simp only [Slot.send, hg, Except.map, Except.ok.injEq, Prod.mk.injEq] at h
      refine ⟨b, p.2, rfl, ?_, h.2.symm⟩
      rw [hg]
      rw [show p = (out, p.2) from Prod.ext h.1 rfl]

theorem PathPres.send_ok {b : Body C I E} (hb : PathPres b) {t out : Trip C I E}
    {b2 : Body C I E} (h : Gen.send b t = .ok (out, b2)) :
    out.2.1 = t.2.1 ∧ PathPres b2 := by
  cases hb with
  | intro f hpath hrec => exact ⟨hpath t out b2 h, hrec t out b2 h⟩

theorem Inv.of_slot_none {cfg : Cfg C I E} (h : cfg.slot = none) : Inv cfg := by
  intro b hb
  rw [h] at hb
  cases hb

theorem Inv.of_slot_exhausted {cfg : Cfg C I E} (h : cfg.slot = some .exhausted) : Inv cfg := by
  intro b hb
  rw [h] at hb
  cases hb

/-- When the State Factory only produces path-preserving bodies and the
driver's internal invariant holds, each suspension of the `try` block
yields a triple whose path is the driver's path and ends in the
identifier of the (just or still) entered State Body, and the invariant
is maintained. -/
theorem tryStep_yld_inv [DecidableEq I]
    (state_factory : C → List I → Option E → Except Exc (Body C I E))
    (hsf : ∀ c p e b, state_factory c p e = .ok b → PathPres b)
    (cfg : Cfg C I E) (nid : I) (evs : List (Ev C I E)) (out : Trip C I E) (k : Cfg C I E)
    (hinv : Inv cfg) (h : tryStep state_factory cfg nid = (evs, .yld out k)) :
    k.path = out.2.1 ∧ out.2.1.getLast? = some nid ∧ Inv k := by
  unfold tryStep at h
  split at h
  · dsimp only at h
    split at h
    · simp at h
    · simp at h
    · rename_i b hfac
      split at h
      · rename_i out1 s1 hsend1
        simp only [Prod.mk.injEq, TryRes.yld.injEq] at h
        obtain ⟨-, hout, hk⟩ := h
        subst hk
        subst hout
        obtain ⟨b0, b2, hlive, hgen, hs2⟩ := Slot.send_live_ok hsend1
        cases hlive
        have hpp := hsf _ _ _ _ hfac
        have hps := hpp.send_ok hgen
        have hpath : out1.2.1 = (closePop cfg).2.path ++ [nid] := hps.1
        refine ⟨rfl, ?_, ?_⟩
        · rw [hpath, List.getLast?_concat]
        · intro b3 hb3
          simp only [Option.some.injEq] at hb3
          rw [hs2] at hb3
          injection hb3 with hbb
          subst hbb
          refine ⟨hps.2, ?_⟩
          rw [hpath, List.getLast?_concat]
      · simp at h
      · simp at h
  · rename_i hcond
    rw [not_or, not_not] at hcond
    split at h
    · rename_i s hslot
      split at h
      · rename_i out1 s1 hsend1
        simp only [Prod.mk.injEq, TryRes.yld.injEq] at h
        obtain ⟨-, hout, hk⟩ := h
        subst hk
        subst hout
        obtain ⟨b0, b2, hlive, hgen, hs2⟩ := Slot.send_live_ok hsend1
        subst hlive
        obtain ⟨hpp, hlast⟩ := hinv b0 hslot
        have hps := hpp.send_ok hgen
        have hpath : out1.2.1 = cfg.path := hps.1
        refine ⟨rfl, ?_, ?_⟩
        · rw [hpath, hlast, ← hcond.1]
        · intro b3 hb3
          simp only [Option.some.injEq] at hb3
          rw [hs2] at hb3
          injection hb3 with hbb
          subst hbb
          refine ⟨hps.2, ?_⟩
          rw [hpath, hlast]
      · simp at h
      · simp at h
    · simp at h

/-- Under a path-preserving State Factory and the driver's internal
invariant, every suspension of the loop presents a non-empty path that
is the driver's own path and ends in the identifier of the currently
entered State Body, and the invariant still holds at the suspension. -/
theorem smLoop_pathInv [DecidableEq I]
    (transition_func : C → Option I × Option E → Except Exc (Option I))
    (state_factory : C → List I → Option E → Except Exc (Body C I E))
    (hsf : ∀ c p e b, state_factory c p e = .ok b → PathPres b) :
    ∀ (fuel : Nat) (cfg : Cfg C I E) (evs : List (Ev C I E)) (out : Trip C I E)
      (k : Cfg C I E), Inv cfg →
      smLoop transition_func state_factory fuel cfg = (evs, .suspended out k) →
      k.path = out.2.1 ∧ out.2.1.getLast? = k.sid ∧ out.2.1 ≠ [] ∧ Inv k := by
  intro fuel
  induction fuel with
  | zero =>
    intro cfg evs out k hinv h
    simp [smLoop] at h
  | succ n ih =>
    intro cfg evs out k hinv h
    unfold smLoop at h
    dsimp only at h
    split at h
    · simp at h
    · simp at h
    · rename_i nid htf
      rcases hts : tryStep state_factory cfg nid with ⟨evs1, tr⟩
      rw [hts] at h
      cases tr with
      | yld out1 k1 =>
        dsimp only at h
        simp only [Prod.mk.injEq, LoopRes.suspended.injEq] at h
        obtain ⟨-, hout, hk⟩ := h
        subst hk
        subst hout
        obtain ⟨hp1, hp2, hp3⟩ :=
          tryStep_yld_inv state_factory hsf cfg nid evs1 out1 k1 hinv hts
        have hsid := tryStep_yld_sid state_factory cfg nid evs1 out1 k1 hts
        refine ⟨hp1, by rw [hp2, hsid], ?_, hp3⟩
        intro hnil
        rw [hnil] at hp2
        cases hp2
      | stop k1 =>
        dsimp only at h
        simp only [Prod.mk.injEq] at h
        obtain ⟨-, h2⟩ := h
        have hinv1 : Inv {k1 with evt := none, path := k1.path.dropLast} := by
          rcases tryStep_stop_slot state_factory cfg nid evs1 k1 hts with hs | hs
          · exact Inv.of_slot_none hs
          · exact Inv.of_slot_exhausted hs
        exact ih _ _ out k hinv1 (by rw [← h2])
      | exc e k1 =>
        dsimp only at h
        simp at h

/-- The `try` block never emits a yield event itself; suspension is
signalled through its result. -/
theorem tryStep_yieldedCount [DecidableEq I]
    (state_factory : C → List I → Option E → Except Exc (Body C I E))
    (cfg : Cfg C I E) (nid : I) :
    yieldedCount (tryStep state_factory cfg nid).1 = 0 := by
  unfold tryStep
  split
  · dsimp only
    split
    · simp [closePop_evs]
      split <;> simp
    · simp [closePop_evs]
      split <;> simp
    · split <;>
        · simp [closePop_evs]
          split <;> simp
  · split
    · split <;> simp
    · simp

/-- When a State Body is registered and the Transition Function picks a
different identifier, the `try` block closes the registered body first:
its trace starts with the `closed` event. -/
theorem tryStep_close_head [DecidableEq I]
    (state_factory : C → List I → Option E → Except Exc (Body C I E))
    (cfg : Cfg C I E) (nid : I) (s : Slot C I E)
    (hslot : cfg.slot = some s) (hne : some nid ≠ cfg.sid) :
    ∃ tl, (tryStep state_factory cfg nid).1 = Ev.closed cfg.sid :: tl := by
  have he : (closePop cfg).1 = [Ev.closed cfg.sid] := by
    rw [closePop_evs]; simp [hslot]
  unfold tryStep
  rw [if_pos (Or.inl hne)]
  dsimp only
  split
  · exact ⟨[], by rw [he]⟩
  · exact ⟨[], by rw [he]⟩
  · split
    · exact ⟨_, by rw [he]; rfl⟩
    · exact ⟨_, by rw [he]; rfl⟩
    · exact ⟨_, by rw [he]; rfl⟩

/-- `bodyP0` is (vacuously) path-preserving. -/
theorem pathPres_bodyP0 : PathPres bodyP0 := by
  refine .intro _ ?_ ?_ <;> intro t out b h <;> exact absurd h (by simp)

/-- `bodyP1` is path-preserving. -/
theorem pathPres_bodyP1 : PathPres bodyP1 := by
  refine .intro _ ?_ ?_ <;> intro t out b h
  · injection h with h2
    obtain ⟨h3, -⟩ := Prod.mk.injEq .. ▸ h2
    rw [← h3]
  · injection h with h2
    obtain ⟨-, h4⟩ := Prod.mk.injEq .. ▸ h2
    rw [← h4]
    exact pathPres_bodyP0

/-- Every body `sfP` produces is path-preserving. -/
theorem sfP_pathPres : ∀ c p e b, sfP c p e = .ok b → PathPres b := by
  intro c p e b h
  injection h with h2
  rw [← h2]
  exact pathPres_bodyP1

end Lemmas

/-! ### The claims -/

section Claims

/-- C1, counterexample.  Run the spec's own scenario (`tfA`/`sfA`: enter
state 0 from the empty path, the body completes at once).  The third
trace event is the Transition Function invocation performed right after
the completion pop: the driver's path there is `[]`, yet `currentId` is
`some 0` — the identifier of the body that just finished — whereas the
claim requires `currentId` to be the last element of the popped path,
i.e. absent.  -/
theorem c1_counterexample :
    (driverRun tfA sfA 5 ((0 : Nat), ([] : List Nat), (none : Option Nat)) []).1
      = [Ev.transCall [] none none, Ev.created [0], Ev.transCall [] (some 0) none,
         Ev.closed (some 0)] ∧
    some 0 ≠ ([] : List Nat).getLast? :=
  ⟨rfl, by decide⟩

/-- C1, amended.  When a State Body signals completion, the driver
clears the event to absent, pops the last element off the path, and
immediately — same external step, no yield event in between — re-invokes
the Transition Function; but `currentId` is not recomputed from the
popped path: it stays the identifier of the State Body that just
finished (`state_id` is unchanged by the handler). -/
theorem c1_completion_retransitions_with_finished_id {C I E : Type} [DecidableEq I]
    (transition_func : C → Option I × Option E → Except Exc (Option I))
    (state_factory : C → List I → Option E → Except Exc (Body C I E))
    (fuel : Nat) (cfg : Cfg C I E) (nid : I) (evs : List (Ev C I E)) (k : Cfg C I E)
    (htf : transition_func cfg.ctx (cfg.sid, cfg.evt) = .ok (some nid))
    (hts : tryStep state_factory cfg nid = (evs, .stop k)) :
    k.sid = some nid ∧ yieldedCount evs = 0 ∧
    ∃ tl r, smLoop transition_func state_factory (fuel + 2) cfg
      = (Ev.transCall cfg.path cfg.sid cfg.evt
          :: evs ++ Ev.transCall k.path.dropLast (some nid) none :: tl, r) := by
  refine ⟨tryStep_stop_sid state_factory cfg nid evs k hts, ?_,
    smLoop_stop_next transition_func state_factory fuel cfg nid evs k htf hts⟩
  have hy := tryStep_yieldedCount state_factory cfg nid
  rw [hts] at hy
  exact hy

/-- Witness for C1: the amended theorem applied to the `tfA`/`sfA`
scenario at the concrete configuration `cfgA0`. -/
theorem c1_witness :
    kA.sid = some 0 ∧ yieldedCount ([Ev.created [0]] : List (Ev Nat Nat Nat)) = 0 ∧
    ∃ tl r, smLoop tfA sfA 3 cfgA0
      = (Ev.transCall [] none none :: Ev.created [0]
          :: Ev.transCall [] (some 0) none :: tl, r) :=
  c1_completion_retransitions_with_finished_id tfA sfA 1 cfgA0 0 [Ev.created [0]] kA rfl rfl

/-- C2, counterexample.  `body0`, entered for id 0 from the empty path,
hands back the extended path `[0, 1]` (as a nested driver would) and
then completes; the handler pops to `[0]` and the Transition Function
returns 2.  The claim predicts no force-close and no further pop, so the
next suspension would carry path `[0] ++ [2]`.  The code instead closes
the exhausted body (the `Ev.closed (some 0)` event), pops a second time,
and suspends with path `[2]`. -/
theorem c2_counterexample :
    driverRun tfB sfB 5 ((0 : Nat), ([] : List Nat), (some 5 : Option Nat)) [(0, [], some 6)]
      = ([Ev.transCall [] none (some 5), Ev.created [0], Ev.yielded (0, [0, 1], some 5),
          Ev.transCall [0, 1] (some 0) (some 6), Ev.transCall [0] (some 0) none,
          Ev.closed (some 0), Ev.created [2], Ev.yielded (0, [2], none)],
         .suspendedAt (0, [2], none) kB2) ∧
    ([2] : List Nat) ≠ [0] ++ [2] :=
  ⟨rfl, by decide⟩

/-- C2, amended.  After a completion pop the exhausted State Body is
still registered in the `state` variable; when the Transition Function
then returns an identifier different from the finished one, the driver
force-closes the exhausted body and pops the path a second time before
pushing the returned identifier and creating a fresh State Body via the
State Factory. -/
theorem c2_post_completion_close_and_second_pop {C I E : Type} [DecidableEq I]
    (state_factory : C → List I → Option E → Except Exc (Body C I E))
    (cfg : Cfg C I E) (nid : I) (s : Slot C I E) (b : Body C I E)
    (out : Trip C I E) (s2 : Slot C I E)
    (hslot : cfg.slot = some s) (hne : some nid ≠ cfg.sid)
    (hfac : state_factory cfg.ctx (cfg.path.dropLast ++ [nid]) cfg.evt = .ok b)
    (hsend : Slot.send (.live b) (cfg.ctx, cfg.path.dropLast ++ [nid], cfg.evt)
      = .ok (out, s2)) :
    tryStep state_factory cfg nid =
      ([Ev.closed cfg.sid, Ev.created (cfg.path.dropLast ++ [nid])],
       .yld out { ctx := out.1, path := out.2.1, evt := out.2.2,
                  slot := some s2, sid := some nid }) := by
  have hcp : closePop cfg
      = ([Ev.closed cfg.sid], {cfg with slot := none, path := cfg.path.dropLast}) := by
    unfold closePop
    rw [hslot]
  unfold tryStep
  rw [if_pos (Or.inl hne)]
  dsimp only
  rw [hcp]
  dsimp only
  rw [hfac]
  dsimp only
  rw [hsend]
  rfl

/-- Witness for C2: the amended theorem applied at `cfgB2`, the
configuration reached right after the completion pop in the
`tfB`/`sfB` run. -/
theorem c2_witness :
    tryStep sfB cfgB2 2
      = ([Ev.closed (some 0), Ev.created [2]], .yld (0, [2], none) kB2) :=
  c2_post_completion_close_and_second_pop sfB cfgB2 2 .exhausted body2
    (0, [2], none) (.live body2after) rfl (by decide) rfl rfl

/-- C4.  When a State Body signals completion while a non-absent event
is pending, the driver replaces the event with absent before the next
Transition Function invocation: the re-invocation after the pop
observes `none`, never the event that was already delivered to the
completed child. -/
theorem c4_event_cleared_before_retransition {C I E : Type} [DecidableEq I]
    (transition_func : C → Option I × Option E → Except Exc (Option I))
    (state_factory : C → List I → Option E → Except Exc (Body C I E))
    (fuel : Nat) (cfg : Cfg C I E) (nid : I) (evs : List (Ev C I E)) (k : Cfg C I E)
    (e0 : E) (hev : cfg.evt = some e0)
    (htf : transition_func cfg.ctx (cfg.sid, some e0) = .ok (some nid))
    (hts : tryStep state_factory cfg nid = (evs, .stop k)) :
    ∃ tl r, smLoop transition_func state_factory (fuel + 2) cfg
      = (Ev.transCall cfg.path cfg.sid (some e0)
          :: evs ++ Ev.transCall k.path.dropLast k.sid none :: tl, r) := by
  have hsid := tryStep_stop_sid state_factory cfg nid evs k hts
  have h2 := smLoop_stop_next transition_func state_factory fuel cfg nid evs k
    (by rw [hev]; exact htf) hts
  rw [hev, ← hsid] at h2
  exact h2

/-- Witness for C4: at `cfgB1` the event `some 6` is pending when the
body signals completion; the re-invocation observes `none`. -/
theorem c4_witness :
    ∃ tl r, smLoop tfB sfB 3 cfgB1
      = (Ev.transCall [0, 1] (some 0) (some 6)
          :: Ev.transCall [0] (some 0) none :: tl, r) :=
  c4_event_cleared_before_retransition tfB sfB 1 cfgB1 0 [] kB 6 rfl rfl rfl

/-- C7.  With the Transition Function `(none, *) -> 0`,
`(some _, *) -> absent` and a State Factory whose body completes on its
very first resumption, the driver started on the empty path terminates
— popping back to the empty path (third event: transition invoked with
path `[]` again) — without ever suspending to the external caller (no
`yielded` event). -/
theorem c7_immediate_completion_terminates_without_yield :
    driverRun tfA sfA 5 ((0 : Nat), ([] : List Nat), (none : Option Nat)) []
      = ([Ev.transCall [] none none, Ev.created [0], Ev.transCall [] (some 0) none,
          Ev.closed (some 0)], .terminated) ∧
    yieldedCount
      (driverRun tfA sfA 5 ((0 : Nat), ([] : List Nat), (none : Option Nat)) []).1 = 0 :=
  ⟨rfl, rfl⟩

/-- C3.  Guaranteed release.  For every run of the driver: a terminated
run's trace has exactly as many `closed` events as `created` events; so
does a failed run's trace; a run cut off while suspended balances once
the external close (`smClose`, the `finally` clause) is delivered; and
whenever a State Body is registered and a different identifier is to be
entered, the `try` block's trace begins with the `closed` event — the
old body is closed before anything else (in particular before the new
state's `created` event). -/
theorem c3_guaranteed_release {C I E : Type} [DecidableEq I]
    (transition_func : C → Option I × Option E → Except Exc (Option I))
    (state_factory : C → List I → Option E → Except Exc (Body C I E))
    (fuel : Nat) (init : Trip C I E) (inputs : List (Trip C I E)) :
    ((driverRun transition_func state_factory fuel init inputs).2 = .terminated →
      closedCount (driverRun transition_func state_factory fuel init inputs).1
        = createdCount (driverRun transition_func state_factory fuel init inputs).1) ∧
    (∀ e, (driverRun transition_func state_factory fuel init inputs).2 = .failed e →
      closedCount (driverRun transition_func state_factory fuel init inputs).1
        = createdCount (driverRun transition_func state_factory fuel init inputs).1) ∧
    (∀ out k, (driverRun transition_func state_factory fuel init inputs).2
        = .suspendedAt out k →
      closedCount ((driverRun transition_func state_factory fuel init inputs).1 ++ smClose k)
        = createdCount
            ((driverRun transition_func state_factory fuel init inputs).1 ++ smClose k)) ∧
    (∀ (cfg : Cfg C I E) (nid : I) (s : Slot C I E), cfg.slot = some s →
      some nid ≠ cfg.sid →
      ∃ tl, (tryStep state_factory cfg nid).1 = Ev.closed cfg.sid :: tl) := by
  have hstart := smLoop_count transition_func state_factory fuel
    { ctx := init.1, path := init.2.1, evt := init.2.2, slot := none,
      sid := init.2.1.getLast? }
  have hbal : closedCount (smStart transition_func state_factory fuel
        init.1 init.2.1 init.2.2).1
      + (smStart transition_func state_factory fuel init.1 init.2.1 init.2.2).2.endOpen
    = createdCount (smStart transition_func state_factory fuel
        init.1 init.2.1 init.2.2).1 := by
    unfold smStart
    simpa [openCount] using hstart
  have hd := drive_count transition_func state_factory fuel inputs
    (smStart transition_func state_factory fuel init.1 init.2.1 init.2.2).1
    (smStart transition_func state_factory fuel init.1 init.2.1 init.2.2).2 hbal
  rw [Prod.mk.eta] at hd
  have hrun : driverRun transition_func state_factory fuel init inputs
      = drive transition_func state_factory fuel inputs
          (smStart transition_func state_factory fuel init.1 init.2.1 init.2.2) := rfl
  rw [← hrun] at hd
  refine ⟨hd.1, hd.2.1, ?_, ?_⟩
  · intro out k h
    have h3 := hd.2.2 out k h
    simp only [closedCount_append, createdCount_append, smClose, closedCount_closeEvs,
      createdCount_closeEvs]
    omega
  · intro cfg nid s hs hn
    exact tryStep_close_head state_factory cfg nid s hs hn

/-- Witness for C3: the theorem applied to the terminated `tfA`/`sfA`
run, to the suspended `tfB`/`sfB` run (with the external close
delivered), and to the supersession at `cfgB2`. -/
theorem c3_witness :
    (closedCount (driverRun tfA sfA 5 ((0 : Nat), ([] : List Nat), (none : Option Nat)) []).1
      = createdCount
          (driverRun tfA sfA 5 ((0 : Nat), ([] : List Nat), (none : Option Nat)) []).1) ∧
    (closedCount ((driverRun tfB sfB 5 ((0 : Nat), ([] : List Nat), (some 5 : Option Nat))
          [(0, [], some 6)]).1 ++ smClose kB2)
      = createdCount ((driverRun tfB sfB 5 ((0 : Nat), ([] : List Nat), (some 5 : Option Nat))
          [(0, [], some 6)]).1 ++ smClose kB2)) ∧
    (∃ tl, (tryStep sfB cfgB2 2).1 = Ev.closed cfgB2.sid :: tl) :=
  ⟨(c3_guaranteed_release tfA sfA 5 (0, [], none) []).1 rfl,
   (c3_guaranteed_release tfB sfB 5 (0, [], some 5) [(0, [], some 6)]).2.2.1
     (0, [2], none) kB2 rfl,
   (c3_guaranteed_release tfB sfB 5 (0, [], some 5) []).2.2.2 cfgB2 2 .exhausted rfl
     (by decide)⟩

/-- C5, counterexample.  The StateIdPath invariant is quantified over
every choice of State Bodies, including the triples they hand back: but
`body7`, entered for id 0, hands back the path `[7]`, which the driver
adopts wholesale and presents at its suspension — its last element `7`
is not the identifier `0` of the currently entered State Body, and the
path was mutated by the body, not the driver. -/
theorem c5_counterexample :
    (driverRun tfC sfC 5 ((0 : Nat), ([] : List Nat), (none : Option Nat)) []).2.outTrip
      = some (0, [7], none) ∧
    (driverRun tfC sfC 5 ((0 : Nat), ([] : List Nat), (none : Option Nat)) []).2.sidAt
      = some (some 0) ∧
    ([7] : List Nat).getLast? ≠ some 0 :=
  ⟨rfl, rfl, by decide⟩

/-- C5, amended.  For State Factories all of whose bodies are
path-preserving (`PathPres`): at every suspension of the loop — and of
any resumption — the presented path is the driver's own path, it is
non-empty, and its last element is the identifier of the currently
entered State Body; the internal invariant `Inv` is maintained, and it
holds at any freshly started configuration. -/
theorem c5_path_invariant_for_path_preserving_bodies {C I E : Type} [DecidableEq I]
    (transition_func : C → Option I × Option E → Except Exc (Option I))
    (state_factory : C → List I → Option E → Except Exc (Body C I E))
    (hsf : ∀ c p e b, state_factory c p e = .ok b → PathPres b) :
    (∀ (fuel : Nat) (cfg : Cfg C I E) (evs : List (Ev C I E)) (out : Trip C I E)
       (k : Cfg C I E), Inv cfg →
       smLoop transition_func state_factory fuel cfg = (evs, .suspended out k) →
       k.path = out.2.1 ∧ out.2.1.getLast? = k.sid ∧ out.2.1 ≠ [] ∧ Inv k) ∧
    (∀ (fuel : Nat) (k : Cfg C I E) (inp : Trip C I E) (evs : List (Ev C I E))
       (out : Trip C I E) (k2 : Cfg C I E), Inv k →
       smResume transition_func state_factory fuel k inp = (evs, .suspended out k2) →
       k2.path = out.2.1 ∧ out.2.1.getLast? = k2.sid ∧ out.2.1 ≠ [] ∧ Inv k2) ∧
    (∀ (c : C) (p : List I) (e : Option E),
       Inv { ctx := c, path := p, evt := e, slot := none, sid := p.getLast? }) := by
  refine ⟨smLoop_pathInv transition_func state_factory hsf, ?_, ?_⟩
  · intro fuel k inp evs out k2 hinv h
    unfold smResume at h
    dsimp only at h
    split at h
    · simp at h
    · refine smLoop_pathInv transition_func state_factory hsf fuel _ evs out k2 ?_ h
      exact hinv
  · intro c p e
    exact Inv.of_slot_none rfl

/-- Witness for C5: the amended theorem on the path-preserving
`tfP`/`sfP` scenario, at the first suspension from `cfgA0`. -/
theorem c5_witness :
    kP.path = ([0] : List Nat) ∧ ([0] : List Nat).getLast? = kP.sid ∧
    ([0] : List Nat) ≠ [] ∧ Inv kP :=
  (c5_path_invariant_for_path_preserving_bodies tfP sfP sfP_pathPres).1 1 cfgA0
    [Ev.transCall [] none none, Ev.created [0]] (0, [0], none) kP
    (Inv.of_slot_none rfl) rfl

/-- C6.  On resumption the driver adopts the caller's context and event
but discards the caller-supplied path: resuming with any two paths gives
literally the same continuation, and whole runs whose input lists agree
on contexts and events — while differing arbitrarily in paths — produce
identical traces and outcomes. -/
theorem c6_resumption_discards_caller_path {C I E : Type} [DecidableEq I] :
    (∀ (transition_func : C → Option I × Option E → Except Exc (Option I))
       (state_factory : C → List I → Option E → Except Exc (Body C I E))
       (fuel : Nat) (k : Cfg C I E) (c : C) (p1 p2 : List I) (e : Option E),
       smResume transition_func state_factory fuel k (c, p1, e)
         = smResume transition_func state_factory fuel k (c, p2, e)) ∧
    (∀ (transition_func : C → Option I × Option E → Except Exc (Option I))
       (state_factory : C → List I → Option E → Except Exc (Body C I E))
       (fuel : Nat) (init : Trip C I E) (inputs1 inputs2 : List (Trip C I E)),
       inputs1.map (fun t => (t.1, t.2.2)) = inputs2.map (fun t => (t.1, t.2.2)) →
       driverRun transition_func state_factory fuel init inputs1
         = driverRun transition_func state_factory fuel init inputs2) := by
  constructor
  · intro transition_func state_factory fuel k c p1 p2 e
    rfl
  · intro transition_func state_factory fuel init inputs1 inputs2 hmap
    suffices haux : ∀ (l1 l2 : List (Trip C I E)) (pr : List (Ev C I E) × LoopRes C I E),
        l1.map (fun t => (t.1, t.2.2)) = l2.map (fun t => (t.1, t.2.2)) →
        drive transition_func state_factory fuel l1 pr
          = drive transition_func state_factory fuel l2 pr by
      exact haux inputs1 inputs2 _ hmap
    intro l1
    induction l1 with
    | nil =>
      intro l2 pr hm
      cases l2 with
      | nil => rfl
      | cons a l => simp at hm
    | cons a l ih =>
      intro l2 pr hm
      cases l2 with
      | nil => simp at hm
      | cons a2 t2 =>
        simp only [List.map_cons, List.cons.injEq] at hm
        obtain ⟨ha, hl⟩ := hm
        rcases pr with ⟨evs, r⟩
        cases r with
        | suspended out k =>
          obtain ⟨h1, h2⟩ := Prod.mk.injEq .. ▸ ha
          have hres : smResume transition_func state_factory fuel k a
              = smResume transition_func state_factory fuel k a2 := by
            unfold smResume
            rw [h1, h2]
          simp only [drive]
          rw [hres]
          exact ih t2 _ hl
        | finished => rfl
        | failed e => rfl
        | fuelOut k => rfl

/-- Witness for C6: two one-round runs of the `tfC`/`sfC` machine whose
resumption values differ only in the path component coincide. -/
theorem c6_witness :
    driverRun tfC sfC 2 ((0 : Nat), ([] : List Nat), (none : Option Nat)) [(0, [9, 9], none)]
      = driverRun tfC sfC 2 ((0 : Nat), ([] : List Nat), (none : Option Nat))
          [(0, [], none)] :=
  (c6_resumption_discards_caller_path).2 tfC sfC 2 (0, [], none)
    [(0, [9, 9], none)] [(0, [], none)] rfl

/-- C10.  Whenever the loop suspends a StepResult, the internally
tracked `state_id` is non-absent; consequently the post-resumption
`state_id is None` termination check never fires — resuming such a
configuration always re-enters the loop (so the driver terminates only
through the Transition Function returning absent, an external close, or
a propagated failure). -/
theorem c10_suspension_has_current_id {C I E : Type} [DecidableEq I]
    (transition_func : C → Option I × Option E → Except Exc (Option I))
    (state_factory : C → List I → Option E → Except Exc (Body C I E)) :
    (∀ (fuel : Nat) (cfg : Cfg C I E) (evs : List (Ev C I E)) (out : Trip C I E)
       (k : Cfg C I E),
       smLoop transition_func state_factory fuel cfg = (evs, .suspended out k) →
       k.sid ≠ none) ∧
    (∀ (fuel : Nat) (k : Cfg C I E) (inp : Trip C I E), k.sid ≠ none →
       smResume transition_func state_factory fuel k inp
         = smLoop transition_func state_factory fuel
             {k with ctx := inp.1, evt := inp.2.2}) := by
  constructor
  · intro fuel cfg evs out k h
    obtain ⟨nid, hs⟩ := smLoop_suspended_sid transition_func state_factory fuel cfg
      evs out k h
    simp [hs]
  · intro fuel k inp h
    exact smResume_not_none transition_func state_factory fuel k inp h

/-- Witness for C10: the suspension reached from `cfgA0` under
`tfC`/`sfC` carries `state_id = some 0`, and resuming it re-enters the
loop. -/
theorem c10_witness :
    kC.sid ≠ none ∧
    smResume tfC sfC 3 kC (5, [9], some 4)
      = smLoop tfC sfC 3 {kC with ctx := 5, evt := some 4} :=
  ⟨(c10_suspension_has_current_id tfC sfC).1 1 cfgA0
      [Ev.transCall [] none none, Ev.created [0]] (0, [7], none) kC rfl,
   (c10_suspension_has_current_id tfC sfC).2 3 kC (5, [9], some 4)
     ((c10_suspension_has_current_id tfC sfC).1 1 cfgA0
       [Ev.transCall [] none none, Ev.created [0]] (0, [7], none) kC rfl)⟩

/-- C8.  `run_sm` repeatedly sends the current value into the machine
(the callback, when supplied, transforming the value each round), and
ends in exactly the two claimed ways: when the machine raises the stop
signal it returns the value fed in — the last value produced — and when
the callback raises the stop signal it returns the value the machine
just produced (suitable for resuming later) instead of propagating the
stop signal. -/
theorem c8_run_sm_termination_modes {V : Type} (g : Gen V) (cb : Gen V → V → Except Exc V)
    (val : V) (fuel : Nat) :
    (∀ cbo : Option (Gen V → V → Except Exc V), Gen.send g val = .error .stopIter →
       run_sm cbo (fuel + 1) g val = .ret val) ∧
    (∀ v g2, Gen.send g val = .ok (v, g2) → cb g2 v = .error .stopIter →
       run_sm (some cb) (fuel + 1) g val = .ret v) ∧
    (∀ v g2 v2, Gen.send g val = .ok (v, g2) → cb g2 v = .ok v2 →
       run_sm (some cb) (fuel + 1) g val = run_sm (some cb) fuel g2 v2) ∧
    (∀ v g2, Gen.send g val = .ok (v, g2) →
       run_sm none (fuel + 1) g val = run_sm none fuel g2 v) := by
  refine ⟨?_, ?_, ?_, ?_⟩
  · intro cbo h
    unfold run_sm
    rw [h]
  · intro v g2 hs hc
    unfold run_sm
    rw [hs]
    dsimp only
    rw [hc]
  · intro v g2 v2 hs hc
    conv_lhs => unfold run_sm
    rw [hs]
    dsimp only
    rw [hc]
  · intro v g2 hs
    conv_lhs => unfold run_sm
    rw [hs]

/-- Witness for C8: `gW` produces 1 and then stops; the four modes of
the theorem at concrete generators and callbacks. -/
theorem c8_witness :
    run_sm (some cbStop) 3 gW 0 = .ret 1 ∧
    run_sm (some cbAdd) 2 gW 0 = run_sm (some cbAdd) 1 gW2 11 ∧
    run_sm none 2 gW 0 = run_sm none 1 gW2 1 ∧
    run_sm none 2 gW2 5 = .ret 5 :=
  ⟨(c8_run_sm_termination_modes gW cbStop 0 2).2.1 1 gW2 rfl rfl,
   (c8_run_sm_termination_modes gW cbAdd 0 1).2.2.1 1 gW2 11 rfl rfl,
   (c8_run_sm_termination_modes gW cbAdd 0 1).2.2.2 1 gW2 rfl,
   (c8_run_sm_termination_modes gW2 cbAdd 5 1).1 none rfl⟩

/-- C9.  With an event source, no callback and no consumer-supplied
replacement, each pull of the iterator consumes exactly one event,
substituting it into the event slot (third component) of the previous
value while keeping the context and path slots; a consumer-supplied
replacement is used verbatim and no event is pulled that round. -/
theorem c9_iter_sm_event_consumption {C I E : Type} (st : IterSt C I E) :
    (∀ (e : Option E) (rest : List (Option E)) (v : Trip C I E) (g2 : Gen (Trip C I E)),
       st.evts = some (e :: rest) →
       Gen.send st.g (st.val.1, st.val.2.1, e) = .ok (v, g2) →
       iter_sm_resume none st none = .out v ⟨g2, some rest, v⟩) ∧
    (∀ (p v : Trip C I E) (g2 : Gen (Trip C I E)), Gen.send st.g p = .ok (v, g2) →
       iter_sm_resume none st (some p) = .out v ⟨g2, st.evts, v⟩) := by
  constructor
  · intro e rest v g2 hevts hsend
    unfold iter_sm_resume
    rw [hevts]
    dsimp only
    unfold pullOnce
    rw [hsend]
  · intro p v g2 hsend
    unfold iter_sm_resume
    dsimp only
    unfold pullOnce
    rw [hsend]

/-- Witness for C9: one pull of the iterator over `stI` consumes the
pending event 7 into the event slot of `(0, [3], some 5)`; a replacement
`(9, [9], some 9)` is used verbatim with the event source untouched. -/
theorem c9_witness :
    iter_sm_resume none stI none
      = .out (0, [3], some 7) ⟨gI2, some [], (0, [3], some 7)⟩ ∧
    iter_sm_resume none stI (some (9, [9], some 9))
      = .out (9, [9], some 9) ⟨gI2, some [some 7], (9, [9], some 9)⟩ :=
  ⟨(c9_iter_sm_event_consumption stI).1 (some 7) [] (0, [3], some 7) gI2 rfl rfl,
   (c9_iter_sm_event_consumption stI).2 (9, [9], some 9) (9, [9], some 9) gI2 rfl⟩

end Claims

end SMachine
